import Mathlib

/-!
Shallow embedding of the Gridcoin-Research contract-validation and dispatch
layer (`src/neuralnet/contract.cpp`): the contract envelope, the open
Type/Action variant codecs, the key-resolution table, the replay-protection
pool, and the dispatcher routing table.  Pure functions of the source become
Lean functions; the mutable replay pool becomes explicit state passing on a
`List ReplayPoolItem`; external collaborators (wall clock, RNG, ECDSA
signing) become explicit parameters.
-/

set_option maxHeartbeats 1000000

/-- Closed enumeration behind `Contract::Type` (`ContractType` in the C++
header). -/
inductive ContractType where
  | BEACON
  | POLL
  | PROJECT
  | PROTOCOL
  | SCRAPER
  | SUPERBLOCK
  | VOTE
  | UNKNOWN
deriving DecidableEq, Repr

/-- Closed enumeration behind `Contract::Action` (`ContractAction` in the C++
header). -/
inductive ContractAction where
  | ADD
  | REMOVE
  | UNKNOWN
deriving DecidableEq, Repr

/-- Open variant for `Contract::Type`: the enum value plus the optional
preserved wire literal (`EnumVariant`: `m_value`, `m_other`). -/
structure TypeVariant where
  m_value : ContractType
  m_other : Option String
deriving DecidableEq, Repr

/-- Open variant for `Contract::Action`: the enum value plus the optional
preserved wire literal. -/
structure ActionVariant where
  m_value : ContractAction
  m_other : Option String
deriving DecidableEq, Repr

/-- Embedding of `Contract::Type::Parse`. -/
def TypeVariant.Parse (input : String) : TypeVariant :=
  if input = "" then ⟨ContractType.UNKNOWN, none⟩
  -- Ordered by frequency in the source:
  else if input = "beacon" then ⟨ContractType.BEACON, none⟩
  else if input = "vote" then ⟨ContractType.VOTE, none⟩
  else if input = "poll" then ⟨ContractType.POLL, none⟩
  else if input = "project" then ⟨ContractType.PROJECT, none⟩
  else if input = "scraper" then ⟨ContractType.SCRAPER, none⟩
  else if input = "protocol" then ⟨ContractType.PROTOCOL, none⟩
  -- Currently handled elsewhere:
  else if input = "superblock" then ⟨ContractType.SUPERBLOCK, none⟩
  -- Legacy type for "project" (found at height 267504, 410257):
  else if input = "projectmapping" then ⟨ContractType.PROJECT, some "projectmapping"⟩
  else ⟨ContractType.UNKNOWN, some input⟩

/-- Embedding of `Contract::Type::ToString`. -/
def TypeVariant.ToString (t : TypeVariant) : String :=
  match t.m_other with
  | some other => other
  | none =>
    match t.m_value with
    | ContractType.BEACON => "beacon"
    | ContractType.POLL => "poll"
    | ContractType.PROJECT => "project"
    | ContractType.PROTOCOL => "protocol"
    | ContractType.SCRAPER => "scraper"
    | ContractType.SUPERBLOCK => "superblock"
    | ContractType.VOTE => "vote"
    | ContractType.UNKNOWN => ""

/-- Embedding of `Contract::Action::Parse`. -/
def ActionVariant.Parse (input : String) : ActionVariant :=
  if input = "" then ⟨ContractAction.UNKNOWN, none⟩
  else if input = "A" then ⟨ContractAction.ADD, none⟩
  else if input = "D" then ⟨ContractAction.REMOVE, none⟩
  else ⟨ContractAction.UNKNOWN, some input⟩

/-- Embedding of `Contract::Action::ToString`. -/
def ActionVariant.ToString (a : ActionVariant) : String :=
  match a.m_other with
  | some other => other
  | none =>
    match a.m_value with
    | ContractAction.ADD => "A"
    | ContractAction.REMOVE => "D"
    | ContractAction.UNKNOWN => ""

/-- The seven canonical wire tokens recognized by `Contract::Type::Parse`
(the legacy alias "projectmapping" is handled separately). -/
def knownTypeTokens : List String :=
  ["beacon", "vote", "poll", "project", "scraper", "protocol", "superblock"]

/-- Raw public key bytes (`CPubKey`, a byte vector in the C++ sources). -/
structure CPubKey where
  m_vch : List Nat
deriving DecidableEq, Repr

/-- Modelled from the spec: `CPubKey::IsValid` lives outside this translation
unit; the spec says a public key is viable iff it is a structurally valid
curve-point encoding (65-byte uncompressed form starting with 0x04 or 33-byte
compressed form starting with 0x02/0x03). -/
def CPubKey.IsValid (k : CPubKey) : Bool :=
  (decide (k.m_vch.length = 65) && decide (k.m_vch.head? = some 0x04))
    || (decide (k.m_vch.length = 33)
          && (decide (k.m_vch.head? = some 0x02) || decide (k.m_vch.head? = some 0x03)))

/-- Embedding of `Contract::Signature`: the raw signature byte sequence. -/
structure ContractSignature where
  m_bytes : List Nat
deriving DecidableEq, Repr

/-- Embedding of `Contract::Signature::Viable`: the DER-encoded ECDSA size
envelope, between 64 and 73 bytes. -/
def ContractSignature.Viable (s : ContractSignature) : Bool :=
  decide (64 ≤ s.m_bytes.length) && decide (s.m_bytes.length ≤ 73)

/-- Embedding of `Contract::PublicKey`: wraps a `CPubKey`. -/
structure ContractPublicKey where
  m_key : CPubKey
deriving DecidableEq, Repr

/-- Embedding of `Contract::PublicKey::Viable`: delegates to
`CPubKey::IsValid`. -/
def ContractPublicKey.Viable (p : ContractPublicKey) : Bool :=
  p.m_key.IsValid

/-- Embedding of `Contract::PublicKey::Key`. -/
def ContractPublicKey.Key (p : ContractPublicKey) : CPubKey :=
  p.m_key

/-- Content hash of a contract.  The hash functions themselves (`Hash` over
the legacy triple, `SerializeHash` over the structured payload) live outside
this translation unit, so the hash is modelled as the exact preimage each
branch of `Contract::GetHash` feeds to them: the `legacy` constructor carries
the v1 triple (type-string, key, value); the `serialized` constructor is
modelled from the spec: for version > 1 the hash covers the full serialized
structured payload (all fields). -/
inductive ContractHash where
  | legacy (typeString key value : String)
  | serialized (version : Int) (ty : TypeVariant) (act : ActionVariant)
      (key value : String) (sig : List Nat) (pk : CPubKey)
      (nonce : Nat) (timestamp : Int) (tx_timestamp : Int)
deriving DecidableEq, Repr

/-- Embedding of the contract envelope (`class Contract`).  The mutable
`m_hash_cache` (a `uint256` where 0 means "not cached") becomes an
`Option ContractHash`. -/
structure Contract where
  m_version : Int
  m_type : TypeVariant
  m_action : ActionVariant
  m_key : String
  m_value : String
  m_signature : ContractSignature
  m_public_key : ContractPublicKey
  m_nonce : Nat
  m_timestamp : Int
  m_tx_timestamp : Int
  m_hash_cache : Option ContractHash
deriving DecidableEq, Repr

/-- Modelled from the spec: `Contract::CURRENT_VERSION` is declared in the
header outside this translation unit; the spec describes exactly two formats,
legacy version 1 and structured version 2, so the version ceiling is 2. -/
def CURRENT_VERSION : Int := 2

/-- Embedding of the default `Contract::Contract()` constructor: current
version, UNKNOWN type and action, empty key/value/signature/key, zeroed
numeric fields. -/
def Contract.mkDefault : Contract :=
  { m_version := CURRENT_VERSION
    m_type := ⟨ContractType.UNKNOWN, none⟩
    m_action := ⟨ContractAction.UNKNOWN, none⟩
    m_key := ""
    m_value := ""
    m_signature := ⟨[]⟩
    m_public_key := ⟨⟨[]⟩⟩
    m_nonce := 0
    m_timestamp := 0
    m_tx_timestamp := 0
    m_hash_cache := none }

/-- Embedding of `Contract::MasterPublicKey` (the hardcoded 65-byte key). -/
def Contract.MasterPublicKey : CPubKey :=
  ⟨[0x04, 0x9a, 0xc0, 0x03, 0xb3, 0x31, 0x8d, 0x9f, 0xe2, 0x8b, 0x28,
    0x30, 0xf6, 0xa9, 0x5a, 0x26, 0x24, 0xce, 0x2a, 0x69, 0xfb, 0x0c,
    0x0c, 0x7a, 0xc0, 0xb5, 0x13, 0xef, 0xcc, 0x1e, 0x93, 0xa6, 0xa6,
    0xe8, 0xeb, 0xa8, 0x44, 0x81, 0x15, 0x5d, 0xd8, 0x2f, 0x2f, 0x11,
    0x04, 0xe0, 0xff, 0x62, 0xc6, 0x9d, 0x66, 0x2b, 0x00, 0x94, 0x63,
    0x9b, 0x71, 0x06, 0xab, 0xc5, 0xd8, 0x4f, 0x94, 0x8c, 0x0a]⟩

/-- Embedding of `Contract::MessagePublicKey` (the hardcoded 65-byte key). -/
def Contract.MessagePublicKey : CPubKey :=
  ⟨[0x04, 0x4b, 0x29, 0x38, 0xfb, 0xc3, 0x80, 0x71, 0xf2, 0x4b, 0xed,
    0xe2, 0x1e, 0x83, 0x8a, 0x07, 0x58, 0xa5, 0x2a, 0x00, 0x85, 0xf2,
    0xe0, 0x34, 0xe7, 0xf9, 0x71, 0xdf, 0x44, 0x54, 0x36, 0xa2, 0x52,
    0x46, 0x7f, 0x69, 0x2e, 0xc9, 0xc5, 0xba, 0x7e, 0x5e, 0xaa, 0x89,
    0x8a, 0xb9, 0x9c, 0xbd, 0x99, 0x49, 0x49, 0x6f, 0x7e, 0x3c, 0xaf,
    0xbf, 0x56, 0x30, 0x4b, 0x1c, 0xc2, 0xe5, 0xbd, 0xf0, 0x6e]⟩

/-- Embedding of `Contract::ReplayPeriod`: `GetAdjustedTime()` is an external
clock, passed as `now`; `REPLAY_RETENTION_PERIOD` is a header constant
consumed as configuration, passed as `retention`. -/
def Contract.ReplayPeriod (now retention : Int) : Int :=
  now - retention

/-- Embedding of `Contract::RequiresMasterKey`: switch on `m_type.Value()`. -/
def Contract.RequiresMasterKey (c : Contract) : Bool :=
  match c.m_type.m_value with
  | ContractType.BEACON => decide (c.m_action.m_value = ContractAction.REMOVE)
  | ContractType.POLL => decide (c.m_action.m_value = ContractAction.REMOVE)
  | ContractType.PROJECT => true
  | ContractType.PROTOCOL => true
  | ContractType.SCRAPER => true
  | ContractType.VOTE => decide (c.m_action.m_value = ContractAction.REMOVE)
  | _ => false

/-- Embedding of `Contract::RequiresMessageKey`: switch on `m_type.Value()`. -/
def Contract.RequiresMessageKey (c : Contract) : Bool :=
  match c.m_type.m_value with
  | ContractType.BEACON => decide (c.m_action.m_value = ContractAction.ADD)
  | ContractType.POLL => decide (c.m_action.m_value = ContractAction.ADD)
  | ContractType.VOTE => decide (c.m_action.m_value = ContractAction.ADD)
  | _ => false

/-- Embedding of `Contract::RequiresSpecialKey`. -/
def Contract.RequiresSpecialKey (c : Contract) : Bool :=
  c.RequiresMessageKey || c.RequiresMasterKey

/-- Embedding of `Contract::ResolvePublicKey`: message key, else master key,
else the embedded public key. -/
def Contract.ResolvePublicKey (c : Contract) : CPubKey :=
  if c.RequiresMessageKey then Contract.MessagePublicKey
  else if c.RequiresMasterKey then Contract.MasterPublicKey
  else c.m_public_key.Key

/-- Embedding of `Contract::WellFormed`. -/
def Contract.WellFormed (c : Contract) : Bool :=
  decide (0 < c.m_version) && decide (c.m_version ≤ CURRENT_VERSION)
    && decide (c.m_type.m_value ≠ ContractType.UNKNOWN)
    && decide (c.m_action.m_value ≠ ContractAction.UNKNOWN)
    && !(decide (c.m_key = ""))
    && !(decide (c.m_value = ""))
    && c.m_signature.Viable
    && (c.RequiresSpecialKey || c.m_public_key.Viable)
    && decide (0 < c.m_tx_timestamp)
    && (decide (c.m_version = 1)
          || (decide (0 < c.m_timestamp) && decide (0 < c.m_nonce)))

/-- Embedding of `Contract::GetHash`: return the cached hash when present;
otherwise hash the full structured payload for version > 1, or the
(type-string, key, value) triple for version 1. -/
def Contract.GetHash (c : Contract) : ContractHash :=
  match c.m_hash_cache with
  | some h => h
  | none =>
    if c.m_version > 1 then
      ContractHash.serialized c.m_version c.m_type c.m_action c.m_key c.m_value
        c.m_signature.m_bytes c.m_public_key.m_key c.m_nonce c.m_timestamp
        c.m_tx_timestamp
    else
      ContractHash.legacy c.m_type.ToString c.m_key c.m_value

/-- Embedding of the first half of `Contract::Sign`: invalidate the cached
hash, and for version > 1 stamp the signing timestamp from the clock
(`GetAdjustedTime`, passed as `now`) and the nonce from the RNG
(`RAND_bytes`, passed as `rand_nonce`). -/
def Contract.SignPrep (c : Contract) (now : Int) (rand_nonce : Nat) : Contract :=
  if c.m_version > 1 then
    { c with m_hash_cache := none, m_timestamp := now, m_nonce := rand_nonce }
  else
    { c with m_hash_cache := none }

/-- Embedding of `Contract::Sign`: the external ECDSA signer
(`CKey::Sign`) is passed as `signFn`, the signer's public key
(`CKey::GetPubKey`) as `signerPubKey`.  On signer failure the function
returns false and the contract as left by the preparation step; on success
it stores the signature and, when no special key is required, the embedded
public key. -/
def Contract.Sign (c : Contract) (now : Int) (rand_nonce : Nat)
    (signFn : ContractHash → Option (List Nat)) (signerPubKey : CPubKey) :
    Bool × Contract :=
  match signFn ((c.SignPrep now rand_nonce).GetHash) with
  | none => (false, c.SignPrep now rand_nonce)
  | some output =>
    if ({ c.SignPrep now rand_nonce with m_signature := ⟨output⟩ } : Contract).RequiresSpecialKey then
      (true, { c.SignPrep now rand_nonce with m_signature := ⟨output⟩ })
    else
      (true, { c.SignPrep now rand_nonce with
                 m_signature := ⟨output⟩, m_public_key := ⟨signerPubKey⟩ })

/-- Embedding of `Dispatcher::ReplayPoolItem`. -/
structure ReplayPoolItem where
  m_timestamp : Int
  m_hash : ContractHash
deriving DecidableEq, Repr

/-- Identities of the handler objects the dispatcher can route to: the
beacon directory (`GetBeaconDirectory()`), the project whitelist
(`GetWhitelist()`), the temporary AppCache key-value handler
(`m_appcache_handler`), and the logging-only unknown-type handler
(`m_unknown_handler`). -/
inductive HandlerId where
  | beaconDirectory
  | whitelist
  | appCache
  | unknownHandler
deriving DecidableEq, Repr

/-- Mutating operations of the `IContractHandler` capability interface. -/
inductive HandlerOp where
  | add
  | delete
deriving DecidableEq, Repr

/-- Embedding of `Dispatcher::GetHandler`: the switch on the contract type.
The `SUPERBLOCK` case is commented out in the source (handled elsewhere), so
it falls through to the unknown handler. -/
def Dispatcher.GetHandler (type : ContractType) : HandlerId :=
  match type with
  | ContractType.BEACON => HandlerId.beaconDirectory
  | ContractType.POLL => HandlerId.appCache
  | ContractType.PROJECT => HandlerId.whitelist
  | ContractType.PROTOCOL => HandlerId.appCache
  | ContractType.SCRAPER => HandlerId.appCache
  | ContractType.VOTE => HandlerId.appCache
  | _ => HandlerId.unknownHandler

/-- Embedding of `Dispatcher::Apply` as the handler mutation it performs:
`some (handler, op)` when a handler method is invoked, `none` when the
action is unknown and the contract is logged and dropped. -/
def Dispatcher.Apply (c : Contract) : Option (HandlerId × HandlerOp) :=
  if c.m_action.m_value = ContractAction.ADD then
    some (Dispatcher.GetHandler c.m_type.m_value, HandlerOp.add)
  else if c.m_action.m_value = ContractAction.REMOVE then
    some (Dispatcher.GetHandler c.m_type.m_value, HandlerOp.delete)
  else
    none

/-- Embedding of the default `IContractHandler::Revert`: the inverse handler
operation derived from the contract action, or `none` (log only) for an
unknown action. -/
def IContractHandler.Revert (c : Contract) : Option HandlerOp :=
  if c.m_action.m_value = ContractAction.ADD then some HandlerOp.delete
  else if c.m_action.m_value = ContractAction.REMOVE then some HandlerOp.add
  else none

/-- Embedding of the scan loop of `Dispatcher::CheckReplay`: walk the pool;
a hash match returns false with the pool as mutated so far; stale entries
are erased in passing; the scan result is the flag and the surviving pool. -/
def checkReplayScan (valid_after_time : Int) (h : ContractHash) :
    List ReplayPoolItem → Bool × List ReplayPoolItem
  | [] => (true, [])
  | item :: rest =>
    if item.m_hash = h then
      (false, item :: rest)
    else if item.m_timestamp < valid_after_time then
      checkReplayScan valid_after_time h rest
    else
      ((checkReplayScan valid_after_time h rest).1,
        item :: (checkReplayScan valid_after_time h rest).2)

/-- Embedding of `Dispatcher::CheckReplay`: reject contracts older than the
retention window, then scan the pool for a hash match, purging stale entries
lazily.  The mutable member pool becomes an explicit argument and result. -/
def Dispatcher.CheckReplay (now retention : Int) (c : Contract)
    (pool : List ReplayPoolItem) : Bool × List ReplayPoolItem :=
  if c.m_timestamp < Contract.ReplayPeriod now retention then
    (false, pool)
  else
    checkReplayScan (Contract.ReplayPeriod now retention) c.GetHash pool

/-- Embedding of `Dispatcher::TrackForReplay`: unconditionally append the
(timestamp, hash) pair to the pool. -/
def Dispatcher.TrackForReplay (c : Contract) (pool : List ReplayPoolItem) :
    List ReplayPoolItem :=
  pool ++ [⟨c.m_timestamp, c.GetHash⟩]

/-- Concrete well-formed version-1 BEACON/ADD contract used as an evaluation
point for the theorems below. -/
def exV1Beacon : Contract :=
  { m_version := 1
    m_type := ⟨ContractType.BEACON, none⟩
    m_action := ⟨ContractAction.ADD, none⟩
    m_key := "k"
    m_value := "v"
    m_signature := ⟨List.replicate 64 0⟩
    m_public_key := ⟨⟨[]⟩⟩
    m_nonce := 0
    m_timestamp := 0
    m_tx_timestamp := 1
    m_hash_cache := none }

/-- Concrete version-2 contract with a signing timestamp, used as an
evaluation point for the replay-pool theorems. -/
def exV2 : Contract :=
  { exV1Beacon with m_version := 2, m_nonce := 3, m_timestamp := 95 }

/-- C1: a contract is well-formed iff the version lies in
[1, CURRENT_VERSION], the type and action are not UNKNOWN, the key and value
are non-empty, the signature length lies in [64, 73], a special key is
required or the embedded public key is viable, the transaction timestamp is
positive, and either the version is 1 or both the signing timestamp is
positive and the nonce is nonzero. -/
theorem Contract.wellFormed_iff (c : Contract) :
    c.WellFormed = true ↔
      (1 ≤ c.m_version ∧ c.m_version ≤ CURRENT_VERSION
        ∧ c.m_type.m_value ≠ ContractType.UNKNOWN
        ∧ c.m_action.m_value ≠ ContractAction.UNKNOWN
        ∧ c.m_key ≠ "" ∧ c.m_value ≠ ""
        ∧ (64 ≤ c.m_signature.m_bytes.length ∧ c.m_signature.m_bytes.length ≤ 73)
        ∧ (c.RequiresSpecialKey = true ∨ c.m_public_key.Viable = true)
        ∧ 0 < c.m_tx_timestamp
        ∧ (c.m_version = 1 ∨ (0 < c.m_timestamp ∧ c.m_nonce ≠ 0))) := by
  constructor
  · intro h
    simp only [Contract.WellFormed, ContractSignature.Viable, Bool.and_eq_true,
      Bool.or_eq_true, decide_eq_true_eq, Bool.not_eq_true',
      decide_eq_false_iff_not] at h
    obtain ⟨⟨⟨⟨⟨⟨⟨⟨⟨h1, h2⟩, h3⟩, h4⟩, h5⟩, h6⟩, ⟨h7, h8⟩⟩, h9⟩, h10⟩, h11⟩ := h
    refine ⟨by omega, h2, h3, h4, h5, h6, ⟨h7, h8⟩, h9, h10, ?_⟩
    rcases h11 with h11 | ⟨ha, hb⟩
    · exact Or.inl h11
    · exact Or.inr ⟨ha, Nat.pos_iff_ne_zero.mp hb⟩
  · intro h
    obtain ⟨h1, h2, h3, h4, h5, h6, ⟨h7, h8⟩, h9, h10, h11⟩ := h
    simp only [Contract.WellFormed, ContractSignature.Viable, Bool.and_eq_true,
      Bool.or_eq_true, decide_eq_true_eq, Bool.not_eq_true',
      decide_eq_false_iff_not]
    refine ⟨⟨⟨⟨⟨⟨⟨⟨⟨by omega, h2⟩, h3⟩, h4⟩, h5⟩, h6⟩, ⟨h7, h8⟩⟩, h9⟩, h10⟩, ?_⟩
    rcases h11 with h11 | ⟨ha, hb⟩
    · exact Or.inl h11
    · exact Or.inr ⟨ha, Nat.pos_iff_ne_zero.mpr hb⟩

/-- C2: RequiresMasterKey holds exactly for REMOVE on BEACON/POLL/VOTE and
for PROJECT/PROTOCOL/SCRAPER with any action; RequiresMessageKey holds
exactly for ADD on BEACON/POLL/VOTE; and ResolvePublicKey returns the
message key when the message key is required, else the master key when the
master key is required, else the embedded public key. -/
theorem Contract.key_resolution_table (c : Contract) :
    (c.RequiresMasterKey = true ↔
        ((c.m_action.m_value = ContractAction.REMOVE
            ∧ (c.m_type.m_value = ContractType.BEACON
                ∨ c.m_type.m_value = ContractType.POLL
                ∨ c.m_type.m_value = ContractType.VOTE))
          ∨ c.m_type.m_value = ContractType.PROJECT
          ∨ c.m_type.m_value = ContractType.PROTOCOL
          ∨ c.m_type.m_value = ContractType.SCRAPER))
    ∧ (c.RequiresMessageKey = true ↔
        (c.m_action.m_value = ContractAction.ADD
          ∧ (c.m_type.m_value = ContractType.BEACON
              ∨ c.m_type.m_value = ContractType.POLL
              ∨ c.m_type.m_value = ContractType.VOTE)))
    ∧ (c.RequiresMessageKey = true → c.ResolvePublicKey = Contract.MessagePublicKey)
    ∧ (c.RequiresMessageKey = false → c.RequiresMasterKey = true →
        c.ResolvePublicKey = Contract.MasterPublicKey)
    ∧ (c.RequiresMessageKey = false → c.RequiresMasterKey = false →
        c.ResolvePublicKey = c.m_public_key.Key) := by
  refine ⟨?_, ?_, ?_, ?_, ?_⟩
  · cases hty : c.m_type.m_value <;> cases hact : c.m_action.m_value <;>
      simp [Contract.RequiresMasterKey, hty, hact]
  · cases hty : c.m_type.m_value <;> cases hact : c.m_action.m_value <;>
      simp [Contract.RequiresMessageKey, hty, hact]
  · intro h; simp [Contract.ResolvePublicKey, h]
  · intro h1 h2; simp [Contract.ResolvePublicKey, h1, h2]
  · intro h1 h2; simp [Contract.ResolvePublicKey, h1, h2]

/-- C9: no (type, action) pair requires both the master key and the message
key, so the authorizing key resolved for a contract is uniquely
determined. -/
theorem Contract.special_keys_exclusive (c : Contract) :
    (c.RequiresMasterKey && c.RequiresMessageKey) = false := by
  cases hty : c.m_type.m_value <;> cases hact : c.m_action.m_value <;>
    simp [Contract.RequiresMasterKey, Contract.RequiresMessageKey, hty, hact]

/-- C7: parsing a canonical Type or Action token yields a variant printing
that same token; every non-empty token outside the known list parses to an
other-tagged variant printing the original token verbatim; and
"projectmapping" parses to the PROJECT variant while still printing
"projectmapping". -/
theorem TypeVariant.parse_toString_roundtrip :
    ((TypeVariant.Parse "beacon").ToString = "beacon"
      ∧ (TypeVariant.Parse "vote").ToString = "vote"
      ∧ (TypeVariant.Parse "poll").ToString = "poll"
      ∧ (TypeVariant.Parse "project").ToString = "project"
      ∧ (TypeVariant.Parse "scraper").ToString = "scraper"
      ∧ (TypeVariant.Parse "protocol").ToString = "protocol"
      ∧ (TypeVariant.Parse "superblock").ToString = "superblock"
      ∧ (ActionVariant.Parse "A").ToString = "A"
      ∧ (ActionVariant.Parse "D").ToString = "D")
    ∧ (∀ s : String, s ≠ "" → s ∉ knownTypeTokens →
        (TypeVariant.Parse s).m_other = some s ∧ (TypeVariant.Parse s).ToString = s)
    ∧ (∀ s : String, s ≠ "" → s ≠ "A" → s ≠ "D" →
        (ActionVariant.Parse s).m_other = some s
          ∧ (ActionVariant.Parse s).ToString = s)
    ∧ (TypeVariant.Parse "projectmapping").m_value = ContractType.PROJECT
    ∧ (TypeVariant.Parse "projectmapping").ToString = "projectmapping" := by
  refine ⟨by decide, ?_, ?_, by decide, by decide⟩
  · intro s h0 h1
    simp only [knownTypeTokens, List.mem_cons, List.not_mem_nil, or_false,
      not_or] at h1
    obtain ⟨hb, hv, hp, hpr, hs, hpt, hsb⟩ := h1
    by_cases hpm : s = "projectmapping"
    · subst hpm; exact ⟨rfl, rfl⟩
    · constructor <;>
        simp [TypeVariant.Parse, TypeVariant.ToString, h0, hb, hv, hp, hpr,
          hs, hpt, hsb, hpm]
  · intro s h0 hA hD
    constructor <;> simp [ActionVariant.Parse, ActionVariant.ToString, h0, hA, hD]

/-- C7 witness: evaluation of the unknown-token law at the concrete token
"zzz". -/
theorem TypeVariant.parse_toString_roundtrip_witness :
    (TypeVariant.Parse "zzz").m_other = some "zzz"
      ∧ (TypeVariant.Parse "zzz").ToString = "zzz" :=
  TypeVariant.parse_toString_roundtrip.2.1 "zzz" (by decide) (by decide)

/-- The replay-pool scan accepts exactly when no pool entry carries the
candidate hash. -/
theorem checkReplayScan_true_iff (v : Int) (h : ContractHash)
    (l : List ReplayPoolItem) :
    (checkReplayScan v h l).1 = true ↔ ∀ item ∈ l, item.m_hash ≠ h := by
  induction l with
  | nil => simp [checkReplayScan]
  | cons item rest ih =>
    by_cases h1 : item.m_hash = h
    · simp [checkReplayScan, h1]
    · by_cases h2 : item.m_timestamp < v
      · simp [checkReplayScan, h1, h2, ih]
      · simp [checkReplayScan, h1, h2, ih]

/-- The replay-pool scan never adds entries: its surviving pool is a sublist
of the input pool. -/
theorem checkReplayScan_sublist (v : Int) (h : ContractHash)
    (l : List ReplayPoolItem) :
    (checkReplayScan v h l).2.Sublist l := by
  induction l with
  | nil => simp [checkReplayScan]
  | cons item rest ih =>
    by_cases h1 : item.m_hash = h
    · simp [checkReplayScan, h1]
    · by_cases h2 : item.m_timestamp < v
      · simp only [checkReplayScan, if_neg h1, if_pos h2]
        exact ih.trans (List.sublist_cons_self item rest)
      · simp only [checkReplayScan, if_neg h1, if_neg h2]
        exact ih.cons₂ item

/-- Every entry the replay-pool scan drops is stale: its timestamp is below
the cut-off. -/
theorem checkReplayScan_removed (v : Int) (h : ContractHash)
    (l : List ReplayPoolItem) :
    ∀ item ∈ l, item ∉ (checkReplayScan v h l).2 → item.m_timestamp < v := by
  induction l with
  | nil => simp
  | cons hd rest ih =>
    intro item hm hnm
    by_cases h1 : hd.m_hash = h
    · simp only [checkReplayScan, if_pos h1] at hnm
      exact absurd hm hnm
    · by_cases h2 : hd.m_timestamp < v
      · simp only [checkReplayScan, if_neg h1, if_pos h2] at hnm
        rcases List.mem_cons.mp hm with he | hr
        · exact he ▸ h2
        · exact ih item hr hnm
      · simp only [checkReplayScan, if_neg h1, if_neg h2, List.mem_cons,
          not_or] at hnm
        rcases List.mem_cons.mp hm with he | hr
        · exact absurd he hnm.1
        · exact ih item hr hnm.2

/-- When the replay-pool scan accepts, it has visited the whole pool, so
every surviving entry has a timestamp at or above the cut-off. -/
theorem checkReplayScan_fresh (v : Int) (h : ContractHash)
    (l : List ReplayPoolItem) :
    (checkReplayScan v h l).1 = true →
      ∀ item ∈ (checkReplayScan v h l).2, v ≤ item.m_timestamp := by
  induction l with
  | nil => simp [checkReplayScan]
  | cons hd rest ih =>
    intro ht item hm
    by_cases h1 : hd.m_hash = h
    · simp [checkReplayScan, if_pos h1] at ht
    · by_cases h2 : hd.m_timestamp < v
      · simp only [checkReplayScan, if_neg h1, if_pos h2] at ht hm
        exact ih ht item hm
      · simp only [checkReplayScan, if_neg h1, if_neg h2] at ht hm
        rcases List.mem_cons.mp hm with he | hr
        · exact he ▸ not_lt.mp h2
        · exact ih ht item hr

/-- C3: a contract inside the retention window whose hash matches no pool
entry passes CheckReplay; TrackForReplay unconditionally appends its
(timestamp, hash) pair; and a second CheckReplay on the tracked pool, still
inside the window, rejects the same contract. -/
theorem Dispatcher.checkReplay_track_checkReplay
    (now1 now2 retention : Int) (c : Contract) (pool : List ReplayPoolItem)
    (h1 : Contract.ReplayPeriod now1 retention ≤ c.m_timestamp)
    (h2 : Contract.ReplayPeriod now2 retention ≤ c.m_timestamp)
    (h3 : ∀ item ∈ pool, item.m_hash ≠ c.GetHash) :
    (Dispatcher.CheckReplay now1 retention c pool).1 = true
    ∧ (∀ p : List ReplayPoolItem,
        Dispatcher.TrackForReplay c p = p ++ [⟨c.m_timestamp, c.GetHash⟩])
    ∧ (Dispatcher.CheckReplay now2 retention c
        (Dispatcher.TrackForReplay c
          (Dispatcher.CheckReplay now1 retention c pool).2)).1 = false := by
  have hg1 : ¬ (c.m_timestamp < Contract.ReplayPeriod now1 retention) :=
    not_lt.mpr h1
  have hg2 : ¬ (c.m_timestamp < Contract.ReplayPeriod now2 retention) :=
    not_lt.mpr h2
  refine ⟨?_, fun p => rfl, ?_⟩
  · simp only [Dispatcher.CheckReplay, if_neg hg1]
    exact (checkReplayScan_true_iff _ _ _).mpr h3
  · simp only [Dispatcher.CheckReplay, if_neg hg1, if_neg hg2,
      Dispatcher.TrackForReplay]
    cases hb : (checkReplayScan (Contract.ReplayPeriod now2 retention) c.GetHash
        ((checkReplayScan (Contract.ReplayPeriod now1 retention) c.GetHash
          pool).2 ++ [⟨c.m_timestamp, c.GetHash⟩])).1 with
    | false => rfl
    | true =>
      exact absurd rfl
        ((checkReplayScan_true_iff _ _ _).mp hb
          ⟨c.m_timestamp, c.GetHash⟩ (by simp))

/-- C3 witness: a fresh version-2 contract against the empty pool is
accepted, and rejected again after being tracked. -/
theorem Dispatcher.checkReplay_track_checkReplay_witness :
    (Dispatcher.CheckReplay 100 10 exV2 []).1 = true
    ∧ (Dispatcher.CheckReplay 100 10 exV2
        (Dispatcher.TrackForReplay exV2
          (Dispatcher.CheckReplay 100 10 exV2 []).2)).1 = false :=
  ⟨(Dispatcher.checkReplay_track_checkReplay 100 100 10 exV2 []
      (by decide) (by decide) (by simp)).1,
   (Dispatcher.checkReplay_track_checkReplay 100 100 10 exV2 []
      (by decide) (by decide) (by simp)).2.2⟩

/-- C5: a contract whose signing timestamp precedes the retention cut-off is
rejected by CheckReplay with the pool untouched, whatever the pool holds;
in particular any contract with signing timestamp 0 — such as a version-1
contract — is rejected whenever now exceeds the retention period. -/
theorem Dispatcher.checkReplay_stale_reject :
    (∀ (now retention : Int) (c : Contract) (pool : List ReplayPoolItem),
        c.m_timestamp < Contract.ReplayPeriod now retention →
        Dispatcher.CheckReplay now retention c pool = (false, pool))
    ∧ (∀ (now retention : Int) (c : Contract) (pool : List ReplayPoolItem),
        c.m_timestamp = 0 → retention < now →
        (Dispatcher.CheckReplay now retention c pool).1 = false) := by
  constructor
  · intro now retention c pool h
    simp [Dispatcher.CheckReplay, h]
  · intro now retention c pool h0 hlt
    have h : c.m_timestamp < Contract.ReplayPeriod now retention := by
      rw [h0]; simp only [Contract.ReplayPeriod]; omega
    simp [Dispatcher.CheckReplay, h]

/-- C5 witness: a version-1 contract (signing timestamp 0) is rejected at
now = 100, retention = 10, against the empty pool. -/
theorem Dispatcher.checkReplay_stale_reject_witness :
    (Dispatcher.CheckReplay 100 10
      ({ Contract.mkDefault with m_version := 1 } : Contract) []).1 = false :=
  Dispatcher.checkReplay_stale_reject.2 100 10
    { Contract.mkDefault with m_version := 1 } [] rfl (by decide)

/-- C10: CheckReplay never adds pool entries (the resulting pool is a
sublist of the input), drops only entries whose timestamp is below
now − retention, and whenever it accepts, every surviving entry has a
timestamp at or above now − retention. -/
theorem Dispatcher.checkReplay_pool_invariant
    (now retention : Int) (c : Contract) (pool : List ReplayPoolItem) :
    (Dispatcher.CheckReplay now retention c pool).2.Sublist pool
    ∧ (∀ item ∈ pool, item ∉ (Dispatcher.CheckReplay now retention c pool).2 →
        item.m_timestamp < Contract.ReplayPeriod now retention)
    ∧ ((Dispatcher.CheckReplay now retention c pool).1 = true →
        ∀ item ∈ (Dispatcher.CheckReplay now retention c pool).2,
          Contract.ReplayPeriod now retention ≤ item.m_timestamp) := by
  by_cases hg : c.m_timestamp < Contract.ReplayPeriod now retention
  · refine ⟨?_, ?_, ?_⟩
    · simp only [Dispatcher.CheckReplay, if_pos hg]
      exact List.Sublist.refl pool
    · intro item hm hnm
      simp only [Dispatcher.CheckReplay, if_pos hg] at hnm
      exact absurd hm hnm
    · intro ht
      simp only [Dispatcher.CheckReplay, if_pos hg] at ht
      exact absurd ht (by simp)
  · simp only [Dispatcher.CheckReplay, if_neg hg]
    exact ⟨checkReplayScan_sublist _ _ _, checkReplayScan_removed _ _ _,
      checkReplayScan_fresh _ _ _⟩

/-- C10 witness: the pool invariant evaluated on a one-entry pool holding a
fresh foreign hash: the entry survives an accepting check. -/
theorem Dispatcher.checkReplay_pool_invariant_witness :
    (Dispatcher.CheckReplay 100 10 exV2
      [⟨95, ContractHash.legacy "t" "k" "v"⟩]).2.Sublist
      [⟨95, ContractHash.legacy "t" "k" "v"⟩] :=
  (Dispatcher.checkReplay_pool_invariant 100 10 exV2
    [⟨95, ContractHash.legacy "t" "k" "v"⟩]).1

/-- C4: with an empty hash cache, the hash of a well-formed version-1
contract is determined by its type-string, key, and value alone: two such
contracts agreeing on those components hash identically, and replacing the
action, signature, and public key of such a contract leaves its hash
unchanged. -/
theorem Contract.getHash_v1_components :
    (∀ c1 c2 : Contract, c1.WellFormed = true → c2.WellFormed = true →
        c1.m_version = 1 → c2.m_version = 1 →
        c1.m_hash_cache = none → c2.m_hash_cache = none →
        c1.m_type.ToString = c2.m_type.ToString →
        c1.m_key = c2.m_key → c1.m_value = c2.m_value →
        c1.GetHash = c2.GetHash)
    ∧ (∀ (c : Contract) (a : ActionVariant) (sig : ContractSignature)
          (pk : ContractPublicKey), c.WellFormed = true →
        c.m_version = 1 → c.m_hash_cache = none →
        ({ c with
            m_action := a
            m_signature := sig
            m_public_key := pk } : Contract).GetHash = c.GetHash) := by
  constructor
  · intro c1 c2 _ _ hv1 hv2 hc1 hc2 hts hk hv
    simp [Contract.GetHash, hc1, hc2, hv1, hv2, hts, hk, hv]
  · intro c a sig pk _ hv1 hc1
    simp [Contract.GetHash, hc1, hv1]

/-- C4 witness: a concrete well-formed version-1 contract keeps its hash
when its action, signature, and public key are all replaced. -/
theorem Contract.getHash_v1_components_witness :
    ({ exV1Beacon with
        m_action := ⟨ContractAction.REMOVE, none⟩
        m_signature := ⟨List.replicate 65 1⟩
        m_public_key := ⟨⟨[7]⟩⟩ } : Contract).GetHash = exV1Beacon.GetHash :=
  Contract.getHash_v1_components.2 exV1Beacon ⟨ContractAction.REMOVE, none⟩
    ⟨List.replicate 65 1⟩ ⟨⟨[7]⟩⟩ (by decide) rfl rfl

/-- C6: Apply routes ADD to the selected handler's Add and REMOVE to its
Delete and performs no handler mutation otherwise; the handler is selected
by type (BEACON to the beacon directory, PROJECT to the whitelist,
POLL/PROTOCOL/SCRAPER/VOTE to the AppCache key-value handler, SUPERBLOCK and
UNKNOWN to the unknown-type handler); and the default handler Revert maps
ADD to Delete, REMOVE to Add, and anything else to no state change. -/
theorem Dispatcher.routing_table :
    (∀ c : Contract, c.m_action.m_value = ContractAction.ADD →
        Dispatcher.Apply c =
          some (Dispatcher.GetHandler c.m_type.m_value, HandlerOp.add))
    ∧ (∀ c : Contract, c.m_action.m_value = ContractAction.REMOVE →
        Dispatcher.Apply c =
          some (Dispatcher.GetHandler c.m_type.m_value, HandlerOp.delete))
    ∧ (∀ c : Contract, c.m_action.m_value ≠ ContractAction.ADD →
        c.m_action.m_value ≠ ContractAction.REMOVE →
        Dispatcher.Apply c = none)
    ∧ Dispatcher.GetHandler ContractType.BEACON = HandlerId.beaconDirectory
    ∧ Dispatcher.GetHandler ContractType.PROJECT = HandlerId.whitelist
    ∧ Dispatcher.GetHandler ContractType.POLL = HandlerId.appCache
    ∧ Dispatcher.GetHandler ContractType.PROTOCOL = HandlerId.appCache
    ∧ Dispatcher.GetHandler ContractType.SCRAPER = HandlerId.appCache
    ∧ Dispatcher.GetHandler ContractType.VOTE = HandlerId.appCache
    ∧ Dispatcher.GetHandler ContractType.SUPERBLOCK = HandlerId.unknownHandler
    ∧ Dispatcher.GetHandler ContractType.UNKNOWN = HandlerId.unknownHandler
    ∧ (∀ c : Contract, c.m_action.m_value = ContractAction.ADD →
        IContractHandler.Revert c = some HandlerOp.delete)
    ∧ (∀ c : Contract, c.m_action.m_value = ContractAction.REMOVE →
        IContractHandler.Revert c = some HandlerOp.add)
    ∧ (∀ c : Contract, c.m_action.m_value ≠ ContractAction.ADD →
        c.m_action.m_value ≠ ContractAction.REMOVE →
        IContractHandler.Revert c = none) := by
  refine ⟨?_, ?_, ?_, rfl, rfl, rfl, rfl, rfl, rfl, rfl, rfl, ?_, ?_, ?_⟩
  · intro c h; simp [Dispatcher.Apply, h]
  · intro c h; simp [Dispatcher.Apply, h]
  · intro c h1 h2; simp [Dispatcher.Apply, h1, h2]
  · intro c h; simp [IContractHandler.Revert, h]
  · intro c h; simp [IContractHandler.Revert, h]
  · intro c h1 h2; simp [IContractHandler.Revert, h1, h2]

/-- C6 witness: a BEACON/ADD contract is routed to the beacon directory's
Add, and the default Revert on it performs a Delete. -/
theorem Dispatcher.routing_table_witness :
    Dispatcher.Apply exV1Beacon =
      some (HandlerId.beaconDirectory, HandlerOp.add)
    ∧ IContractHandler.Revert exV1Beacon = some HandlerOp.delete :=
  ⟨Dispatcher.routing_table.1 exV1Beacon rfl,
   Dispatcher.routing_table.2.2.2.2.2.2.2.2.2.2.2.1 exV1Beacon rfl⟩

/-- C8: when the underlying signing operation fails, Sign returns false and
the resulting contract keeps its previous signature and embedded public
key. -/
theorem Contract.sign_failure_leaves_unsigned
    (c : Contract) (now : Int) (rand_nonce : Nat)
    (signFn : ContractHash → Option (List Nat)) (signerPubKey : CPubKey)
    (h : signFn ((c.SignPrep now rand_nonce).GetHash) = none) :
    (c.Sign now rand_nonce signFn signerPubKey).1 = false
    ∧ (c.Sign now rand_nonce signFn signerPubKey).2.m_signature = c.m_signature
    ∧ (c.Sign now rand_nonce signFn signerPubKey).2.m_public_key
        = c.m_public_key := by
  have hsig : (c.SignPrep now rand_nonce).m_signature = c.m_signature := by
    by_cases hv : c.m_version > 1 <;> simp [Contract.SignPrep, hv]
  have hpk : (c.SignPrep now rand_nonce).m_public_key = c.m_public_key := by
    by_cases hv : c.m_version > 1 <;> simp [Contract.SignPrep, hv]
  refine ⟨?_, ?_, ?_⟩ <;> simp only [Contract.Sign, h, hsig, hpk]

/-- C8 witness: signing a concrete contract with a failing signer leaves
the signature and embedded public key untouched. -/
theorem Contract.sign_failure_leaves_unsigned_witness :
    (exV1Beacon.Sign 5 7 (fun _ => none) ⟨[]⟩).1 = false
    ∧ (exV1Beacon.Sign 5 7 (fun _ => none) ⟨[]⟩).2.m_signature
        = exV1Beacon.m_signature
    ∧ (exV1Beacon.Sign 5 7 (fun _ => none) ⟨[]⟩).2.m_public_key
        = exV1Beacon.m_public_key :=
  Contract.sign_failure_leaves_unsigned exV1Beacon 5 7 (fun _ => none) ⟨[]⟩ rfl

/-- C1 witness: the concrete version-1 BEACON/ADD contract satisfies the
well-formedness characterization. -/
theorem Contract.wellFormed_iff_witness : exV1Beacon.WellFormed = true :=
  (Contract.wellFormed_iff exV1Beacon).mpr (by decide)

/-- C2 witness: the concrete BEACON/ADD contract requires the message key,
so key resolution yields the fixed message public key. -/
theorem Contract.key_resolution_table_witness :
    exV1Beacon.ResolvePublicKey = Contract.MessagePublicKey :=
  (Contract.key_resolution_table exV1Beacon).2.2.1 rfl

/-- C9 witness: evaluation of the key-exclusivity law at the concrete
BEACON/ADD contract. -/
theorem Contract.special_keys_exclusive_witness :
    (exV1Beacon.RequiresMasterKey && exV1Beacon.RequiresMessageKey) = false :=
  Contract.special_keys_exclusive exV1Beacon
